import Mathlib

/-!
Shallow embedding of the `SimpleVector` container
(src/simple-vector/simple_vector.h, src/simple-vector/array_ptr.h).

The container stores elements in a heap buffer of `capacity_` slots, of
which the first `size_` are the live logical content.  No operation ever
reads a buffer slot at an index `≥ size_` without first overwriting it
(`Resize` default-fills the newly exposed slots, `PushBack`/`Insert` write
before extending `size_`), so at value level the container is faithfully
represented by its live element list together with its capacity.
`size_` is the length of that list.

Move construction and move assignment are additionally modelled at field
level (`MVec`, below) on an addressable store, because their behaviour
under aliasing (self-move) depends on the pointer-swap performed by
`ArrayPtr::operator=(ArrayPtr&&)` and on `std::exchange` ordering.
-/

namespace SimpleVectorSpec

/-- Value-level state of a `SimpleVector<Type>`: the live element sequence
`items_[0, size_)` and the `capacity_` field.  `size_` is `elems.length`. -/
structure SimpleVector (α : Type) where
  elems : List α
  capacity : Nat
deriving DecidableEq

namespace SimpleVector

variable {α : Type}

/-- Models `GetSize()` (line 99): the logical size `size_`. -/
def size (v : SimpleVector α) : Nat :=
  v.elems.length

/-- Default constructor (line 25): `size_ = 0`, `capacity_ = 0`, null buffer. -/
def mkEmpty : SimpleVector α :=
  { elems := [], capacity := 0 }

/-- Constructor `SimpleVector(size_t size, const Type& value)` (lines 32-37): allocates
`size` slots, fills all of them with `value`; `size_ = capacity_ = size`. -/
def mkFilled (n : Nat) (value : α) : SimpleVector α :=
  { elems := List.replicate n value, capacity := n }

/-- Constructor `explicit SimpleVector(size_t size)` (lines 27-30): delegates to the
fill constructor with a default-constructed `Type{}`. -/
def mkSized [Inhabited α] (n : Nat) : SimpleVector α :=
  mkFilled n default

/-- Constructor `SimpleVector(std::initializer_list<Type>)` (lines 39-44): copies the
initializer sequence; `size_ = capacity_ = init.size()`. -/
def mkFromList (init : List α) : SimpleVector α :=
  { elems := init, capacity := init.length }

/-- Constructor `SimpleVector(ReserveProxyObj)` (lines 53-58): allocates
`reserved.capacity` slots, `size_ = 0`. -/
def mkReserved (c : Nat) : SimpleVector α :=
  { elems := [], capacity := c }

/-- Copy constructor (lines 46-51): deep-copies the live elements of
`other`; both `size_` and `capacity_` become `other.size_`. -/
def copyCtor (other : SimpleVector α) : SimpleVector α :=
  { elems := other.elems, capacity := other.size }

/-- Outcome of a checked element access as observed by the caller:
the value; a catchable exception (`throw std::out_of_range` from a
function without a `noexcept` specifier); or a fatal abort — when a
thrown exception reaches the boundary of a `noexcept` function, C++
calls `std::terminate`, which no caller can catch. -/
inductive AccessOutcome (α : Type) where
  | ok (value : α)
  | thrown (msg : String)
  | terminated
deriving DecidableEq

/-- Checked `const Type& operator[](size_t) const noexcept` (lines 72-77):
the body throws `std::out_of_range` when `index >= size_`, but the
function is declared `noexcept` (line 72), so the exception cannot
propagate — reaching the throw ends in `std::terminate`.  In range it
returns `items_[index]`. -/
def opIndexConst (v : SimpleVector α) (index : Nat) : AccessOutcome α :=
  if h : index ≥ v.size then AccessOutcome.terminated
  else AccessOutcome.ok (v.elems.get ⟨index, by simpa [size] using h⟩)

/-- Accessor `Type& At(size_t)` (lines 111-116, no `noexcept`): throws a
catchable `std::out_of_range` when `index >= size_`, returns a reference
to `items_[index]` otherwise. -/
def atChecked (v : SimpleVector α) (index : Nat) : AccessOutcome α :=
  if h : index ≥ v.size then AccessOutcome.thrown "Item index is out of range"
  else AccessOutcome.ok (v.elems.get ⟨index, by simpa [size] using h⟩)

/-- Accessor `const Type& At(size_t) const` (lines 118-123, no `noexcept`):
same catchable check as the non-const overload. -/
def atCheckedConst (v : SimpleVector α) (index : Nat) : AccessOutcome α :=
  if h : index ≥ v.size then AccessOutcome.thrown "Item index is out of range"
  else AccessOutcome.ok (v.elems.get ⟨index, by simpa [size] using h⟩)

/-- Operation `Clear()` (lines 125-127): `size_ = 0`; capacity and buffer retained. -/
def clear (v : SimpleVector α) : SimpleVector α :=
  { elems := [], capacity := v.capacity }

/-- Operation `Reserve(size_t)` (lines 129-135): when `new_capacity > capacity_`,
moves the live elements into a fresh buffer of exactly `new_capacity`
(`ReallocateMove`, lines 275-280) and adopts it; otherwise a no-op. -/
def reserve (v : SimpleVector α) (newCapacity : Nat) : SimpleVector α :=
  if newCapacity > v.capacity then
    { elems := v.elems, capacity := newCapacity }
  else v

/-- Operation `Resize(size_t)` (lines 137-149).  Growth branch: capacity becomes
`max(capacity_ * 2, new_size)`, live elements are moved over, slots
`[size_, new_size)` are default-filled.  In-capacity growth branch:
slots `[size_, new_size)` are default-filled in place.  Shrink branch:
only `size_` changes, truncating the live prefix. -/
def resize [Inhabited α] (v : SimpleVector α) (newSize : Nat) : SimpleVector α :=
  if newSize > v.capacity then
    { elems := v.elems ++ List.replicate (newSize - v.size) default,
      capacity := max (v.capacity * 2) newSize }
  else if newSize > v.size then
    { elems := v.elems ++ List.replicate (newSize - v.size) default,
      capacity := v.capacity }
  else
    { elems := v.elems.take newSize, capacity := v.capacity }

/-- Operation `PushBack` (copy overload lines 151-163, move overload lines 165-179;
identical at value level): when `size_ + 1 > capacity_` the capacity grows
to `max(capacity_ * 2, size_ + 1)`; the item is written at slot `size_`
and `size_` is incremented. -/
def pushBack (v : SimpleVector α) (item : α) : SimpleVector α :=
  if v.size + 1 > v.capacity then
    { elems := v.elems ++ [item], capacity := max (v.capacity * 2) (v.size + 1) }
  else
    { elems := v.elems ++ [item], capacity := v.capacity }

/-- Operation `PopBack()` (lines 181-184): decrements `size_` (precondition: not
empty); the popped slot keeps its value but leaves the live prefix. -/
def popBack (v : SimpleVector α) : SimpleVector α :=
  { elems := v.elems.dropLast, capacity := v.capacity }

/-- Operation `swap(SimpleVector&)` (lines 186-190): exchanges buffer, `size_` and
`capacity_` of the two vectors. -/
def swapVec (a b : SimpleVector α) : SimpleVector α × SimpleVector α :=
  (b, a)

/-- Operation `Insert(ConstIterator pos, ...)` (copy overload lines 192-215, move
overload lines 217-238; identical at value level), with `pos` expressed as
the offset `pos - cbegin()` (precondition `pos ≤ size_`).  In-capacity
branch: shifts `[pos, size_)` one slot right and writes the value at
`pos`.  Growth branch: capacity becomes `max(capacity_ * 2, size_ + 1)`
and prefix/value/suffix are copied into a fresh buffer.  Either way the
live sequence becomes `prefix ++ value :: suffix`. -/
def insert (v : SimpleVector α) (pos : Nat) (value : α) : SimpleVector α :=
  if v.size + 1 ≤ v.capacity then
    { elems := v.elems.take pos ++ value :: v.elems.drop pos,
      capacity := v.capacity }
  else
    { elems := v.elems.take pos ++ value :: v.elems.drop pos,
      capacity := max (v.capacity * 2) (v.size + 1) }

/-- Operation `Erase(ConstIterator pos)` (lines 240-248), with `pos` as an offset
(precondition `pos < size_`): shifts `[pos + 1, size_)` one slot left and
decrements `size_`. -/
def erase (v : SimpleVector α) (pos : Nat) : SimpleVector α :=
  { elems := v.elems.take pos ++ v.elems.drop (pos + 1), capacity := v.capacity }

/-- Copy-assignment `operator=(const SimpleVector&)` (lines 79-89).
`sameObj` models the C++ identity test `&rhs == this` (true exactly when
`rhs` is the very same object as the target `self`).  Guarded
self-assignment is a no-op; an empty source clears the target (capacity
retained); otherwise copy-and-swap with a copy-constructed temporary. -/
def copyAssign (self rhs : SimpleVector α) (sameObj : Bool) : SimpleVector α :=
  if sameObj then self
  else if rhs.size = 0 then clear self
  else copyCtor rhs

/-- Element loop of `operator==` (lines 294-297): `std::equal(lhs.begin(),
lhs.end(), rhs.begin())`, comparing the first `lhs.size` positions with
`operator==` of the elements. -/
def eqRange [DecidableEq α] : List α → List α → Bool
  | [], _ => true
  | _ :: _, [] => false
  | a :: as, b :: bs => if a = b then eqRange as bs else false

/-- Comparison `operator==` (lines 294-297): size check short-circuits
before the element comparison. -/
def svEq [DecidableEq α] (lhs rhs : SimpleVector α) : Bool :=
  if lhs.size = rhs.size then eqRange lhs.elems rhs.elems else false

/-- Comparison `operator!=` (lines 299-302): `!(lhs == rhs)`. -/
def svNe [DecidableEq α] (lhs rhs : SimpleVector α) : Bool :=
  !(svEq lhs rhs)

/-- Models `std::lexicographical_compare` over the two element ranges, using only
`operator<` of the elements (called by `operator<`, lines 309-312). -/
def lexLt [LinearOrder α] : List α → List α → Bool
  | _, [] => false
  | [], _ :: _ => true
  | a :: as, b :: bs => if a < b then true else if b < a then false else lexLt as bs

/-- Comparison `operator<` (lines 309-312). -/
def svLt [LinearOrder α] (lhs rhs : SimpleVector α) : Bool :=
  lexLt lhs.elems rhs.elems

/-- Comparison `operator>` (lines 304-307): `rhs < lhs`. -/
def svGt [LinearOrder α] (lhs rhs : SimpleVector α) : Bool :=
  svLt rhs lhs

/-- Comparison `operator<=` (lines 314-317): `!(rhs < lhs)`. -/
def svLe [LinearOrder α] (lhs rhs : SimpleVector α) : Bool :=
  !(svLt rhs lhs)

/-- Comparison `operator>=` (lines 319-322): `rhs <= lhs`. -/
def svGe [LinearOrder α] (lhs rhs : SimpleVector α) : Bool :=
  svLe rhs lhs

/-- The size/capacity invariant of the data model (`size_ ≤ capacity_`,
fields at lines 289-291). -/
def Inv (v : SimpleVector α) : Prop :=
  v.size ≤ v.capacity

instance (v : SimpleVector α) : Decidable (Inv v) := by
  unfold Inv; infer_instance

end SimpleVector

/-- Field-level state of a `SimpleVector<Type>` object: the buffer owned by
`items_` (its contents as a list), and the raw `size_` and `capacity_`
fields (lines 289-291).  Used to model move construction and move
assignment, where aliasing matters. -/
structure MVec (α : Type) where
  buf : List α
  size : Nat
  cap : Nat
deriving DecidableEq

namespace MVec

variable {α : Type} {I : Type} [DecidableEq I]

/-- Live element sequence of a field-level state: `items_[0, size_)`. -/
def melems (c : MVec α) : List α :=
  c.buf.take c.size

/-- Store update: writing one object of an addressable store of
`SimpleVector` objects. -/
def setCell (m : I → MVec α) (i : I) (c : MVec α) : I → MVec α :=
  fun j => if j = i then c else m j

/-- Statement `items_ = std::move(other.items_)` (line 92), which runs
`ArrayPtr::operator=(ArrayPtr&&)` (array_ptr.h lines 17-20):
`std::swap(_rawPtr, other._rawPtr)`, translated as tmp/write/write on the
store (`t` is `this`, `o` is `other`; they may alias). -/
def maSwapBuf (m : I → MVec α) (t o : I) : I → MVec α :=
  let tmp := (m t).buf
  let m1 := setCell m t { m t with buf := (m o).buf }
  setCell m1 o { m1 o with buf := tmp }

/-- Statement `size_ = std::exchange(other.size_, 0)` (line 93): read `other.size_`,
store `0` into it, then assign the old value to `this->size_`. -/
def maExchangeSize (m : I → MVec α) (t o : I) : I → MVec α :=
  let old := (m o).size
  let m1 := setCell m o { m o with size := 0 }
  setCell m1 t { m1 t with size := old }

/-- Statement `capacity_ = std::exchange(other.capacity_, 0)` (line 94). -/
def maExchangeCap (m : I → MVec α) (t o : I) : I → MVec α :=
  let old := (m o).cap
  let m1 := setCell m o { m o with cap := 0 }
  setCell m1 t { m1 t with cap := old }

/-- Move-assignment `operator=(SimpleVector&&)` (lines 91-97): the three statements in
program order, on a store in which `this` (`t`) and `other` (`o`) may be
the same object. -/
def moveAssign (m : I → MVec α) (t o : I) : I → MVec α :=
  maExchangeCap (maExchangeSize (maSwapBuf m t o) t o) t o

/-- Move constructor (lines 60-65): `items_` steals the buffer via
the move constructor of `ArrayPtr` (`std::exchange(other._rawPtr, nullptr)`,
array_ptr.h line 16), and `size_`/`capacity_` are taken with
`std::exchange(_, 0)`.  A constructor cannot alias its source, so this is
a plain pair: (new object, source afterwards). -/
def moveCtor (src : MVec α) : MVec α × MVec α :=
  ({ buf := src.buf, size := src.size, cap := src.cap },
   { buf := [], size := 0, cap := 0 })

end MVec

/-- Concrete two-object store used to instantiate the move-assignment
facts: object 0 holds live elements `[5, 6]` in a buffer of 3 slots,
object 1 holds `[9]` in a buffer of 1 slot. -/
def mdemo : Fin 2 → MVec Int :=
  fun j => if j = 0 then { buf := [5, 6, 7], size := 2, cap := 3 }
           else { buf := [9], size := 1, cap := 1 }

open SimpleVector

/-- Concrete vector used to instantiate the universally quantified facts:
live elements `[1, 2]`, capacity 2. -/
def vdemo : SimpleVector Int :=
  { elems := [1, 2], capacity := 2 }

/-- Concrete empty-but-with-capacity vector (as produced by `Clear` on a
vector of capacity 7). -/
def vempty7 : SimpleVector Int :=
  { elems := [], capacity := 7 }

/-- Scenario state after `PushBack(1)`, `PushBack(2)`, `PushBack(3)` on a
default-constructed vector. -/
def demo3 : SimpleVector Int :=
  ((mkEmpty.pushBack 1).pushBack 2).pushBack 3

/-- Scenario state after `Insert(begin() + 1, 99)`. -/
def demo4 : SimpleVector Int :=
  demo3.insert 1 99

/-- Scenario state after `Erase(begin() + 1)`. -/
def demo5 : SimpleVector Int :=
  demo4.erase 1

/-- Scenario state after `Resize(5)`. -/
def demo6 : SimpleVector Int :=
  demo5.resize 5

/-- Scenario state after `Clear()`. -/
def demo7 : SimpleVector Int :=
  demo6.clear

/-- Scenario state after `Reserve(10)` on the (now empty) vector. -/
def demo8 : SimpleVector Int :=
  demo7.reserve 10

/-- Claim C1 (code bug, shown at the failing input: the vector `[1, 2]` of
size 2, position 2): both overloads of `At` fail with the catchable
out-of-range exception as the claim states, but the checked operator form
— the const `operator[]` — is declared `noexcept` (line 72) while
throwing (line 74), so at an out-of-range position it ends in
`std::terminate` rather than a catchable error.  Its failure is fatal,
contradicting the claim for the operator form. -/
theorem c1_noexcept_checked_operator_is_fatal :
    vdemo.atChecked 2 = SimpleVector.AccessOutcome.thrown "Item index is out of range" ∧
    vdemo.atCheckedConst 2 = SimpleVector.AccessOutcome.thrown "Item index is out of range" ∧
    vdemo.opIndexConst 2 = SimpleVector.AccessOutcome.terminated ∧
    ∀ msg : String,
      vdemo.opIndexConst 2 ≠ SimpleVector.AccessOutcome.thrown msg := by
  refine ⟨by decide, by decide, by decide, fun msg => ?_⟩
  simp [SimpleVector.opIndexConst, vdemo, SimpleVector.size]

/-- Claim C2: whenever `PushBack`, `Insert` or `Resize` needs more room than
the current capacity, the new capacity is `max(2 × currentCapacity,
requiredMinimum)`, where the required minimum is `size + 1` for
`PushBack`/`Insert` and `newSize` for `Resize`. -/
theorem c2_growth_policy {α : Type} [Inhabited α] :
    (∀ (v : SimpleVector α) (x : α), v.size + 1 > v.capacity →
      (v.pushBack x).capacity = max (2 * v.capacity) (v.size + 1)) ∧
    (∀ (v : SimpleVector α) (pos : Nat) (x : α), v.size + 1 > v.capacity →
      (v.insert pos x).capacity = max (2 * v.capacity) (v.size + 1)) ∧
    (∀ (v : SimpleVector α) (n : Nat), n > v.capacity →
      (v.resize n).capacity = max (2 * v.capacity) n) := by
  refine ⟨fun v x h => ?_, fun v pos x h => ?_, fun v n h => ?_⟩
  · simp [SimpleVector.pushBack, h]
    omega
  · have hno : ¬ (v.size + 1 ≤ v.capacity) := by omega
    simp [SimpleVector.insert, hno]
    omega
  · simp [SimpleVector.resize, h]
    omega

/-- Witness for C2 at the concrete full vector `[1, 2]` of capacity 2. -/
theorem c2_growth_policy_witness :
    vdemo.size + 1 > vdemo.capacity ∧ (3 : Nat) > vdemo.capacity ∧
    ((vdemo.pushBack 7).capacity = max (2 * vdemo.capacity) (vdemo.size + 1) ∧
     (vdemo.insert 1 7).capacity = max (2 * vdemo.capacity) (vdemo.size + 1) ∧
     (vdemo.resize 3).capacity = max (2 * vdemo.capacity) 3) :=
  ⟨by decide, by decide,
    (c2_growth_policy.1 vdemo 7 (by decide)),
    (c2_growth_policy.2.1 vdemo 1 7 (by decide)),
    (c2_growth_policy.2.2 vdemo 3 (by decide))⟩

/-- Claim C6: the concrete scenario of the spec.  Starting from a
default-constructed vector: three `PushBack` calls give `[1, 2, 3]` with
size 3; `Insert` at offset 1 of 99 gives `[1, 99, 2, 3]` with size 4;
`Erase` at offset 1 gives `[1, 2, 3]` back with size 3; `Resize(5)` gives
`[1, 2, 3, 0, 0]` with size 5 and capacity at least 5; `Clear()` gives
size 0 with capacity unchanged; `Reserve(10)` on the now-empty vector
gives capacity 10 and size 0. -/
theorem c6_concrete_scenario :
    demo3.size = 3 ∧ demo3.elems = [1, 2, 3] ∧
    demo4.elems = [1, 99, 2, 3] ∧ demo4.size = 4 ∧
    demo5.elems = [1, 2, 3] ∧ demo5.size = 3 ∧
    demo6.elems = [1, 2, 3, 0, 0] ∧ demo6.size = 5 ∧ demo6.capacity ≥ 5 ∧
    demo7.size = 0 ∧ demo7.capacity = demo6.capacity ∧
    demo7.size = 0 ∧ demo8.capacity = 10 ∧ demo8.size = 0 := by
  decide

/-- Claim C7: copy-assignment from an empty source sets the size of the
target to 0 and leaves the capacity of the target unchanged.  The flag `b`
models the address comparison `&rhs == this`, so `b = true` forces the
source to be the target itself. -/
theorem c7_copy_assign_from_empty {α : Type} (t r : SimpleVector α) (b : Bool)
    (hempty : r.size = 0) (halias : b = true → t = r) :
    (copyAssign t r b).size = 0 ∧ (copyAssign t r b).capacity = t.capacity := by
  cases b with
  | false =>
      have hlen : r.elems.length = 0 := by simpa [SimpleVector.size] using hempty
      constructor <;>
        simp [SimpleVector.copyAssign, SimpleVector.size, SimpleVector.clear, hlen]
  | true =>
      have ht : t = r := halias rfl
      subst ht
      simpa [SimpleVector.copyAssign] using hempty

/-- Witness for C7: assigning the empty capacity-7 vector into `[1, 2]`. -/
theorem c7_copy_assign_from_empty_witness :
    vempty7.size = 0 ∧ (false = true → vdemo = vempty7) ∧
    ((copyAssign vdemo vempty7 false).size = 0 ∧
     (copyAssign vdemo vempty7 false).capacity = vdemo.capacity) :=
  ⟨by decide, by decide,
    c7_copy_assign_from_empty vdemo vempty7 false (by decide) (by decide)⟩

/-- Claim C8: copy self-assignment (`a = a`, address test true) leaves the
vector unchanged: same size, same capacity, same element sequence. -/
theorem c8_copy_self_assignment {α : Type} (a : SimpleVector α) :
    (copyAssign a a true).size = a.size ∧
    (copyAssign a a true).capacity = a.capacity ∧
    (copyAssign a a true).elems = a.elems := by
  refine ⟨?_, ?_, ?_⟩ <;> simp [SimpleVector.copyAssign]

/-- Both branches of `Insert` produce the same live sequence:
prefix, inserted value, suffix. -/
theorem insert_elems {α : Type} (v : SimpleVector α) (pos : Nat) (x : α) :
    (v.insert pos x).elems = v.elems.take pos ++ x :: v.elems.drop pos := by
  unfold SimpleVector.insert
  split <;> rfl

/-- List-level round trip: inserting `x` at a position `pos ≤ l.length` and
then deleting position `pos` restores `l`. -/
theorem take_insert_drop_cancel {α : Type} (l : List α) (pos : Nat) (x : α)
    (h : pos ≤ l.length) :
    (l.take pos ++ x :: l.drop pos).take pos ++
      (l.take pos ++ x :: l.drop pos).drop (pos + 1) = l := by
  induction l generalizing pos with
  | nil =>
      have hp : pos = 0 := by simpa using h
      subst hp
      simp
  | cons a as ih =>
      cases pos with
      | zero => simp
      | succ p =>
          have hp : p ≤ as.length := by simpa using h
          simpa using ih p hp

/-- Claim C3: for every vector and every valid insertion offset
`pos ∈ [0, size]`, `Insert` at `pos` followed by `Erase` at `pos` yields
the original element sequence. -/
theorem c3_insert_erase_round_trip {α : Type} (v : SimpleVector α) (pos : Nat) (x : α)
    (h : pos ≤ v.size) :
    ((v.insert pos x).erase pos).elems = v.elems := by
  have hl : pos ≤ v.elems.length := by simpa [SimpleVector.size] using h
  simp only [SimpleVector.erase, insert_elems]
  exact take_insert_drop_cancel v.elems pos x hl

/-- Witness for C3: inserting 9 at offset 1 of `[1, 2]` and erasing it. -/
theorem c3_insert_erase_round_trip_witness :
    1 ≤ vdemo.size ∧ ((vdemo.insert 1 9).erase 1).elems = vdemo.elems :=
  ⟨by decide, c3_insert_erase_round_trip vdemo 1 9 (by decide)⟩

theorem inv_mkEmpty {α : Type} : Inv (mkEmpty : SimpleVector α) := by
  simp [SimpleVector.Inv, SimpleVector.size, SimpleVector.mkEmpty]

theorem inv_mkSized {α : Type} [Inhabited α] (n : Nat) :
    Inv (mkSized n : SimpleVector α) := by
  simp [SimpleVector.Inv, SimpleVector.size, SimpleVector.mkSized, SimpleVector.mkFilled]

theorem inv_mkFilled {α : Type} (n : Nat) (x : α) : Inv (mkFilled n x) := by
  simp [SimpleVector.Inv, SimpleVector.size, SimpleVector.mkFilled]

theorem inv_mkFromList {α : Type} (l : List α) : Inv (mkFromList l) := by
  simp [SimpleVector.Inv, SimpleVector.size, SimpleVector.mkFromList]

theorem inv_mkReserved {α : Type} (c : Nat) : Inv (mkReserved c : SimpleVector α) := by
  simp [SimpleVector.Inv, SimpleVector.size, SimpleVector.mkReserved]

theorem inv_copyCtor {α : Type} (v : SimpleVector α) : Inv (copyCtor v) := by
  simp [SimpleVector.Inv, SimpleVector.size, SimpleVector.copyCtor]

theorem inv_pushBack {α : Type} (v : SimpleVector α) (x : α) : Inv (v.pushBack x) := by
  unfold SimpleVector.pushBack
  split <;> rename_i hc <;>
    simp only [SimpleVector.Inv, SimpleVector.size] at hc ⊢ <;>
    simp <;> omega

theorem inv_resize {α : Type} [Inhabited α] (v : SimpleVector α) (n : Nat)
    (hv : Inv v) : Inv (v.resize n) := by
  simp only [SimpleVector.Inv, SimpleVector.size] at hv
  unfold SimpleVector.resize
  split
  · rename_i hc
    simp [SimpleVector.Inv, SimpleVector.size]
    omega
  · rename_i hc
    split <;> rename_i hc2 <;> simp [SimpleVector.Inv, SimpleVector.size] <;> omega

theorem inv_reserve {α : Type} (v : SimpleVector α) (n : Nat)
    (hv : Inv v) : Inv (v.reserve n) := by
  simp only [SimpleVector.Inv, SimpleVector.size] at hv
  unfold SimpleVector.reserve
  split <;> rename_i hc <;> simp [SimpleVector.Inv, SimpleVector.size] <;> omega

theorem inv_clear {α : Type} (v : SimpleVector α) : Inv v.clear := by
  simp [SimpleVector.Inv, SimpleVector.size, SimpleVector.clear]

theorem inv_popBack {α : Type} (v : SimpleVector α) (hv : Inv v) : Inv v.popBack := by
  simp only [SimpleVector.Inv, SimpleVector.size] at hv
  simp [SimpleVector.Inv, SimpleVector.size, SimpleVector.popBack]
  omega

theorem inv_insert {α : Type} (v : SimpleVector α) (pos : Nat) (x : α) :
    Inv (v.insert pos x) := by
  unfold SimpleVector.insert
  split <;> rename_i hc <;>
    simp only [SimpleVector.Inv, SimpleVector.size] at hc ⊢ <;>
    simp <;> omega

theorem inv_erase {α : Type} (v : SimpleVector α) (pos : Nat) (hv : Inv v) :
    Inv (v.erase pos) := by
  simp only [SimpleVector.Inv, SimpleVector.size] at hv
  simp [SimpleVector.Inv, SimpleVector.size, SimpleVector.erase]
  omega

theorem inv_copyAssign {α : Type} (t r : SimpleVector α) (b : Bool) (ht : Inv t) :
    Inv (copyAssign t r b) := by
  unfold SimpleVector.copyAssign
  split
  · exact ht
  · split
    · exact inv_clear t
    · exact inv_copyCtor r

theorem inv_swapVec {α : Type} (a b : SimpleVector α) (ha : Inv a) (hb : Inv b) :
    Inv (swapVec a b).1 ∧ Inv (swapVec a b).2 :=
  ⟨hb, ha⟩

theorem cap_le_pushBack {α : Type} (v : SimpleVector α) (x : α) :
    v.capacity ≤ (v.pushBack x).capacity := by
  unfold SimpleVector.pushBack
  split <;> simp <;> omega

theorem cap_le_foldl_pushBack {α : Type} (v : SimpleVector α) (xs : List α) :
    v.capacity ≤ (List.foldl SimpleVector.pushBack v xs).capacity := by
  induction xs generalizing v with
  | nil => exact Nat.le_refl _
  | cons x xs ih =>
      exact Nat.le_trans (cap_le_pushBack v x) (ih (v.pushBack x))

theorem cap_le_resize {α : Type} [Inhabited α] (v : SimpleVector α) (n : Nat) :
    v.capacity ≤ (v.resize n).capacity := by
  unfold SimpleVector.resize
  split
  · simp; omega
  · split <;> simp

theorem cap_le_reserve {α : Type} (v : SimpleVector α) (n : Nat) :
    v.capacity ≤ (v.reserve n).capacity := by
  unfold SimpleVector.reserve
  split <;> simp <;> omega

theorem cap_le_insert {α : Type} (v : SimpleVector α) (pos : Nat) (x : α) :
    v.capacity ≤ (v.insert pos x).capacity := by
  unfold SimpleVector.insert
  split <;> simp <;> omega

theorem cap_eq_clear_popBack_erase {α : Type} (v : SimpleVector α) :
    v.clear.capacity = v.capacity ∧ v.popBack.capacity = v.capacity ∧
    ∀ pos : Nat, (v.erase pos).capacity = v.capacity :=
  ⟨rfl, rfl, fun _ => rfl⟩

/-- Claim C4: the invariant `size ≤ capacity` holds after every constructor
and is preserved by every operation, and capacity never decreases under
`PushBack` (in particular under any sequence of `PushBack` calls) nor
under `Resize`, `Reserve`, `Insert`, `Clear`, `PopBack`, or `Erase` —
only assignment or swap can shrink it. -/
theorem c4_invariant_and_growth {α : Type} [Inhabited α] :
    Inv (mkEmpty : SimpleVector α) ∧
    (∀ n : Nat, Inv (mkSized n : SimpleVector α)) ∧
    (∀ (n : Nat) (x : α), Inv (mkFilled n x)) ∧
    (∀ l : List α, Inv (mkFromList l)) ∧
    (∀ c : Nat, Inv (mkReserved c : SimpleVector α)) ∧
    (∀ v : SimpleVector α, Inv (copyCtor v)) ∧
    (∀ (v : SimpleVector α) (x : α), Inv (v.pushBack x)) ∧
    (∀ (v : SimpleVector α) (n : Nat), Inv v → Inv (v.resize n)) ∧
    (∀ (v : SimpleVector α) (n : Nat), Inv v → Inv (v.reserve n)) ∧
    (∀ v : SimpleVector α, Inv v.clear) ∧
    (∀ v : SimpleVector α, Inv v → Inv v.popBack) ∧
    (∀ (v : SimpleVector α) (pos : Nat) (x : α), Inv (v.insert pos x)) ∧
    (∀ (v : SimpleVector α) (pos : Nat), Inv v → Inv (v.erase pos)) ∧
    (∀ (t r : SimpleVector α) (b : Bool), Inv t → Inv (copyAssign t r b)) ∧
    (∀ a b : SimpleVector α, Inv a → Inv b →
      Inv (swapVec a b).1 ∧ Inv (swapVec a b).2) ∧
    (∀ (v : SimpleVector α) (x : α), v.capacity ≤ (v.pushBack x).capacity) ∧
    (∀ (v : SimpleVector α) (xs : List α),
      v.capacity ≤ (List.foldl SimpleVector.pushBack v xs).capacity) ∧
    (∀ (v : SimpleVector α) (n : Nat), v.capacity ≤ (v.resize n).capacity) ∧
    (∀ (v : SimpleVector α) (n : Nat), v.capacity ≤ (v.reserve n).capacity) ∧
    (∀ (v : SimpleVector α) (pos : Nat) (x : α),
      v.capacity ≤ (v.insert pos x).capacity) ∧
    (∀ v : SimpleVector α, v.clear.capacity = v.capacity ∧
      v.popBack.capacity = v.capacity ∧
      ∀ pos : Nat, (v.erase pos).capacity = v.capacity) :=
  ⟨inv_mkEmpty, inv_mkSized, inv_mkFilled, inv_mkFromList, inv_mkReserved,
   inv_copyCtor, inv_pushBack, inv_resize, inv_reserve, inv_clear, inv_popBack,
   inv_insert, inv_erase, inv_copyAssign, inv_swapVec, cap_le_pushBack,
   cap_le_foldl_pushBack, cap_le_resize, cap_le_reserve, cap_le_insert,
   cap_eq_clear_popBack_erase⟩

/-- Witness for C4: the invariant hypotheses discharged at the concrete
vector `[1, 2]` of capacity 2. -/
theorem c4_invariant_and_growth_witness :
    Inv vdemo ∧
    (Inv (vdemo.resize 1) ∧ Inv (vdemo.reserve 5) ∧ Inv vdemo.popBack ∧
     Inv (vdemo.erase 0) ∧ Inv (copyAssign vdemo vdemo true) ∧
     Inv (swapVec vdemo vdemo).1 ∧ Inv (swapVec vdemo vdemo).2) := by
  have h := c4_invariant_and_growth (α := Int)
  obtain ⟨-, -, -, -, -, -, -, h8, h9, -, h11, -, h13, h14, h15, -, -, -, -, -, -⟩ := h
  have hv : Inv vdemo := by decide
  obtain ⟨hs1, hs2⟩ := h15 vdemo vdemo hv hv
  exact ⟨hv, h8 vdemo 1 hv, h9 vdemo 5 hv, h11 vdemo hv, h13 vdemo 0 hv,
    h14 vdemo vdemo true hv, hs1, hs2⟩

/-- The element loop of `operator==` decides list equality once the two
ranges have the same length. -/
theorem eqRange_eq_iff {α : Type} [DecidableEq α] (as : List α) :
    ∀ bs : List α, as.length = bs.length → (eqRange as bs = true ↔ as = bs) := by
  induction as with
  | nil =>
      intro bs h
      cases bs with
      | nil => simp [SimpleVector.eqRange]
      | cons b bs => simp at h
  | cons a as ih =>
      intro bs h
      cases bs with
      | nil => simp at h
      | cons b bs =>
          by_cases hab : a = b
          · subst hab
            simp [SimpleVector.eqRange, ih bs (by simpa using h)]
          · simp [SimpleVector.eqRange, hab]

/-- The lexicographic comparison loop computes the `List.Lex` order induced
by the strict order on the elements. -/
theorem lexLt_iff_lex {α : Type} [LinearOrder α] (as : List α) :
    ∀ bs : List α,
      (lexLt as bs = true ↔ List.Lex (fun x y : α => x < y) as bs) := by
  induction as with
  | nil =>
      intro bs
      cases bs with
      | nil => simp [SimpleVector.lexLt]
      | cons b bs =>
          simp only [SimpleVector.lexLt]
          exact ⟨fun _ => List.Lex.nil, fun _ => by trivial⟩
  | cons a as ih =>
      intro bs
      cases bs with
      | nil => simp [SimpleVector.lexLt]
      | cons b bs =>
          by_cases h1 : a < b
          · simp only [SimpleVector.lexLt, if_pos h1]
            exact ⟨fun _ => List.Lex.rel h1, fun _ => by trivial⟩
          · by_cases h2 : b < a
            · simp only [SimpleVector.lexLt, if_neg h1, if_pos h2]
              constructor
              · intro hfalse
                exact absurd hfalse (by simp)
              · intro hlex
                exfalso
                cases hlex with
                | cons h => exact absurd h2 (lt_irrefl a)
                | rel h => exact h1 h
            · have hab : a = b := le_antisymm (le_of_not_lt h2) (le_of_not_lt h1)
              subst hab
              simp only [SimpleVector.lexLt, if_neg h1, if_neg h2]
              rw [List.Lex.cons_iff]
              exact ih bs

/-- Claim C9: `operator==` holds exactly for equal sizes with element-wise
equal content in order; `operator<` computes the lexicographic order of
the element sequences; the derived operators `!=`, `>`, `<=`, `>=` are
defined in terms of equality and less-than; and the concrete comparisons
`[1,2,3] < [1,2,4]`, `[1,2] < [1,2,3]`, `[1,2,3] == [1,2,3]` all hold. -/
theorem c9_comparison_operators {α : Type} [LinearOrder α] :
    (∀ a b : SimpleVector α,
      svEq a b = true ↔ a.size = b.size ∧ a.elems = b.elems) ∧
    (∀ a b : SimpleVector α,
      svLt a b = true ↔ List.Lex (fun x y : α => x < y) a.elems b.elems) ∧
    (∀ a b : SimpleVector α, svNe a b = !(svEq a b)) ∧
    (∀ a b : SimpleVector α, svGt a b = svLt b a) ∧
    (∀ a b : SimpleVector α, svLe a b = !(svLt b a)) ∧
    (∀ a b : SimpleVector α, svGe a b = svLe b a) ∧
    svLt (mkFromList [1, 2, 3]) (mkFromList [(1 : Int), 2, 4]) = true ∧
    svLt (mkFromList [1, 2]) (mkFromList [(1 : Int), 2, 3]) = true ∧
    svEq (mkFromList [1, 2, 3]) (mkFromList [(1 : Int), 2, 3]) = true := by
  refine ⟨fun a b => ?_, fun a b => lexLt_iff_lex a.elems b.elems,
    fun a b => rfl, fun a b => rfl, fun a b => rfl, fun a b => rfl,
    by decide, by decide, by decide⟩
  unfold SimpleVector.svEq
  by_cases h : a.size = b.size
  · simp only [if_pos h]
    have hlen : a.elems.length = b.elems.length := by
      simpa [SimpleVector.size] using h
    rw [eqRange_eq_iff a.elems b.elems hlen]
    simp [h]
  · simp only [if_neg h]
    simp [h]

/-- Claim C5: after move construction or move assignment, the destination
holds exactly the buffer (hence element sequence), size and capacity the
source had, and the source is left empty with `size = 0` and
`capacity = 0`.  Move assignment is stated on a two-object store with
distinct target `t` and source `o`. -/
theorem c5_move_semantics :
    (∀ src : MVec Int,
      (MVec.moveCtor src).1 = src ∧
      (MVec.moveCtor src).2.size = 0 ∧ (MVec.moveCtor src).2.cap = 0 ∧
      MVec.melems (MVec.moveCtor src).2 = []) ∧
    (∀ (m : Fin 2 → MVec Int) (t o : Fin 2), t ≠ o →
      (MVec.moveAssign m t o t).buf = (m o).buf ∧
      (MVec.moveAssign m t o t).size = (m o).size ∧
      (MVec.moveAssign m t o t).cap = (m o).cap ∧
      MVec.melems (MVec.moveAssign m t o t) = MVec.melems (m o) ∧
      (MVec.moveAssign m t o o).size = 0 ∧
      (MVec.moveAssign m t o o).cap = 0 ∧
      MVec.melems (MVec.moveAssign m t o o) = []) := by
  constructor
  · intro src
    exact ⟨rfl, rfl, rfl, rfl⟩
  · intro m t o h
    have ho : o ≠ t := Ne.symm h
    refine ⟨?_, ?_, ?_, ?_, ?_, ?_, ?_⟩ <;>
      simp [MVec.moveAssign, MVec.maExchangeCap, MVec.maExchangeSize,
        MVec.maSwapBuf, MVec.setCell, MVec.melems, h, ho]

/-- Witness for C5: moving object 1 of the concrete store `mdemo` into
object 0. -/
theorem c5_move_semantics_witness :
    (0 : Fin 2) ≠ 1 ∧
    ((MVec.moveAssign mdemo 0 1 0).buf = (mdemo 1).buf ∧
     (MVec.moveAssign mdemo 0 1 0).size = (mdemo 1).size ∧
     (MVec.moveAssign mdemo 0 1 0).cap = (mdemo 1).cap ∧
     MVec.melems (MVec.moveAssign mdemo 0 1 0) = MVec.melems (mdemo 1) ∧
     (MVec.moveAssign mdemo 0 1 1).size = 0 ∧
     (MVec.moveAssign mdemo 0 1 1).cap = 0 ∧
     MVec.melems (MVec.moveAssign mdemo 0 1 1) = []) :=
  ⟨by decide, c5_move_semantics.2 mdemo 0 1 (by decide)⟩

/-- Claim C10: move self-assignment leaves the object unchanged even though
the operator has no self-assignment guard: the buffer move-assignment
swaps the handle with itself, and each `std::exchange` writes 0 into the
field and then immediately assigns the saved old value back to the same
field. -/
theorem c10_move_self_assignment (m : Fin 2 → MVec Int) (t : Fin 2) :
    MVec.moveAssign m t t = m := by
  funext j
  by_cases hj : j = t
  · subst hj
    simp [MVec.moveAssign, MVec.maExchangeCap, MVec.maExchangeSize,
      MVec.maSwapBuf, MVec.setCell]
  · simp [MVec.moveAssign, MVec.maExchangeCap, MVec.maExchangeSize,
      MVec.maSwapBuf, MVec.setCell, hj]

end SimpleVectorSpec
